import Mathlib

/-!
# VictoryPie: layout, style resolution and label placement

A shallow embedding of `src/components/victory-pie.jsx`, `slice.jsx` and
`slice-label.jsx`.

* JavaScript numbers are exact rationals (`ℚ`); rounding, `NaN` and the
  infinities are not modelled.
* JavaScript objects are lists of bindings in which a later binding of a key
  shadows an earlier one; their values are literals (no nested objects).
* Collaborators that live outside the three source files (`Math.PI`, number
  formatting, `Chart.evaluateStyle`, `Chart.evaluateProp`,
  `Style.getColorScale`, the arc path and centroid of d3-shape) are fields of
  `Env`; `d3Shape.pie`, `Chart.getStyles`, `Chart.getPadding` and the lodash
  helpers are modelled and marked as such.
-/

set_option autoImplicit false

/-! ## Values and objects -/

/-- Literal JavaScript values found in data, props and style maps. -/
inductive Val where
  | undefined : Val
  | null : Val
  | bool (b : Bool) : Val
  | num (q : ℚ) : Val
  | str (s : String) : Val
deriving DecidableEq

/-- Truthiness of a value, as tested by `?:` and `||`. -/
def Val.truthy : Val → Bool
  | .undefined => false
  | .null => false
  | .bool b => b
  | .num q => decide (q ≠ 0)
  | .str s => decide (s ≠ "")

/-- The operator `a || b`. -/
def Val.or (a b : Val) : Val := if a.truthy then a else b

/-- Objects: bindings in insertion order, a later binding of a key wins. -/
abbrev Obj := List (String × Val)

/-- Property read `o[k]`; an absent key reads as `undefined`. -/
def getProp (o : Obj) (k : String) : Val :=
  o.foldl (fun acc kv => if kv.1 = k then kv.2 else acc) Val.undefined

/-- Own-key test `k in o`. -/
def hasKey (o : Obj) (k : String) : Bool := o.any (fun kv => decide (kv.1 = k))

/-- Object spread `{ ...a, ...b }`. -/
def spread (a b : Obj) : Obj := a ++ b

/-- Modelled from the spec: lodash `merge(target, source)`, which is not under
src/. Later layers win on key collision and unspecified keys fall through; as
lodash documents, source properties that resolve to `undefined` are skipped.
Values are literals, so no recursion into nested objects arises. -/
def merge (target source : Obj) : Obj :=
  target ++ source.filter (fun kv => decide (getProp source kv.1 ≠ Val.undefined))

/-- Modelled from the spec: lodash `omit(object, keys)`, which is not under
src/: the object without the listed keys. -/
def omitKeys (o : Obj) (keys : List String) : Obj :=
  o.filter (fun kv => !(keys.contains kv.1))

/-- Array read `xs[i]`; an index out of range reads as `undefined`. -/
def arrayAt (xs : List Val) (i : Nat) : Val := xs.getD i Val.undefined

/-! ## Data model -/

/-- One datum `{ x, y, label?, ...inline style fields }`. -/
structure Datum where
  x : Val
  y : ℚ
  label : Val := Val.undefined
  extra : Obj := []

/-- The datum as a plain object, as `omit` receives it. -/
def Datum.toObj (d : Datum) : Obj :=
  [("x", d.x), ("y", Val.num d.y), ("label", d.label)] ++ d.extra

/-- Slice descriptor returned by the pie layout. -/
structure SliceDescriptor where
  data : Datum
  index : Nat
  startAngle : ℚ
  endAngle : ℚ
  padAngle : ℚ

/-- Configuration of a d3-shape arc generator: `arc().outerRadius(r).innerRadius(r0)`. -/
structure Arc where
  outerRadius : ℚ
  innerRadius : ℚ

/-- Resolved padding box. -/
structure Padding where
  top : ℚ
  bottom : ℚ
  left : ℚ
  right : ℚ

/-- The `padding` prop: a number or a per-side box. -/
inductive PaddingProp where
  | number (n : ℚ) : PaddingProp
  | box (p : Padding) : PaddingProp

/-- The `colorScale` prop: an array of colours or the name of a built-in scale. -/
inductive ColorScale where
  | array (colors : List Val) : ColorScale
  | named (name : String) : ColorScale

/-- Style of the labels: the numeric `padding` and the remaining properties. -/
structure LabelStyle where
  padding : ℚ
  other : Obj

/-- The label style as a plain object. -/
def LabelStyle.toObj (s : LabelStyle) : Obj := ("padding", Val.num s.padding) :: s.other

/-- Resolved styles `{ parent, data, labels }`. -/
structure Styles where
  parent : Obj
  data : Obj
  labels : LabelStyle

/-- The `style` prop: every layer may be absent. -/
structure StyleProp where
  parent : Option Obj := none
  data : Option Obj := none
  labels : Option Obj := none
  labelsPadding : Option ℚ := none

/-- A caller-supplied label element: its props and its `style` prop. -/
structure LabelComponent where
  props : Obj
  style : Obj := []

/-- Props of `VictoryPie`. -/
structure Props where
  data : List Datum
  endAngle : ℚ
  height : ℚ
  innerRadius : ℚ
  padAngle : ℚ
  padding : PaddingProp
  colorScale : ColorScale
  startAngle : ℚ
  standalone : Bool
  width : ℚ
  style : Option StyleProp := none
  labelComponent : Option LabelComponent := none

/-- External collaborators, absent from the source files. -/
structure Env where
  pi : ℚ
  numToString : ℚ → String
  evaluateStyle : Obj → Obj
  evaluateProp : Val → Val
  getColorScale : String → List Val
  arcPath : Arc → SliceDescriptor → String
  centroid : Arc → SliceDescriptor → ℚ × ℚ

/-- Template-literal stringification of a value. -/
def Val.toStr (env : Env) : Val → String
  | .undefined => "undefined"
  | .null => "null"
  | .bool true => "true"
  | .bool false => "false"
  | .num q => env.numToString q
  | .str s => s

/-! ## The pie layout (d3-shape) -/

/-- Configuration of the pie generator: `startAngle`, `endAngle`, `padAngle`
in radians and the `value` accessor; sorting is disabled (`sort(null)`). -/
structure PieConfig where
  startAngle : ℚ
  endAngle : ℚ
  padAngle : ℚ
  value : Datum → ℚ

/-- Modelled from the spec: the angular span one datum receives from
`d3Shape.pie`, which is not under src/: `S * y / T`, or `0` when `T = 0`. -/
def pieSpan (cfg : PieConfig) (total : ℚ) (d : Datum) : ℚ :=
  if total = 0 then 0 else (cfg.endAngle - cfg.startAngle) * cfg.value d / total

/-- Modelled from the spec: the loop of `d3Shape.pie`, which is not under
src/: data are consumed in input order, every slice starts where the previous
one ended, and the pad angle is recorded on every slice. -/
def pieArcs (cfg : PieConfig) (total : ℚ) : ℚ → Nat → List Datum → List SliceDescriptor
  | _, _, [] => []
  | a0, i, d :: rest =>
    { data := d, index := i, startAngle := a0, endAngle := a0 + pieSpan cfg total d,
      padAngle := cfg.padAngle } :: pieArcs cfg total (a0 + pieSpan cfg total d) (i + 1) rest

/-- Modelled from the spec: the layout `d3Shape.pie()` with sorting disabled,
which is not under src/. The total weight is `T = sum(y)`; spans are allotted
from `startAngle` on, in input order. -/
def pie (cfg : PieConfig) (data : List Datum) : List SliceDescriptor :=
  pieArcs cfg ((data.map cfg.value).sum) cfg.startAngle 0 data

/-! ## victory-pie.jsx -/

/-- The constant `defaultStyles`. -/
def defaultStyles : Styles :=
  { parent := []
    data := [("padding", Val.num 5), ("stroke", Val.str "white"), ("strokeWidth", Val.num 1)]
    labels :=
      { padding := 10
        other :=
          [("fill", Val.str "black"), ("strokeWidth", Val.num 0),
           ("stroke", Val.str "transparent"),
           ("fontFamily", Val.str "'Helvetica Neue', Helvetica, Arial, sans-serif"),
           ("fontSize", Val.num 10), ("textAnchor", Val.str "middle")] } }

/-- The constant `defaultData`. -/
def defaultData : List Datum :=
  [{ x := Val.str "A", y := 1 }, { x := Val.str "B", y := 2 }, { x := Val.str "C", y := 3 },
   { x := Val.str "D", y := 1 }, { x := Val.str "E", y := 2 }]

/-- The constant `defaultColorScale`. -/
def defaultColorScale : List Val :=
  [Val.str "#75C776", Val.str "#39B6C5", Val.str "#78CCC4", Val.str "#62C3A4",
   Val.str "#64A8D1", Val.str "#8C95C8", Val.str "#3BAF74"]

/-- The static `defaultProps`. -/
def defaultProps : Props :=
  { data := defaultData
    endAngle := 360
    height := 400
    innerRadius := 0
    padAngle := 0
    padding := PaddingProp.number 30
    colorScale := ColorScale.array defaultColorScale
    startAngle := 0
    standalone := true
    width := 400 }

/-- Modelled from the spec: `Chart.getStyles(props, defaultStyles)` of
victory-util, which is not under src/: per layer, the base overwritten by the
chart-level override; an absent layer is an empty map. -/
def Chart.getStyles (props : Props) (base : Styles) : Styles :=
  match props.style with
  | none => base
  | some s =>
    { parent := spread base.parent (s.parent.getD [])
      data := spread base.data (s.data.getD [])
      labels :=
        { padding := s.labelsPadding.getD base.labels.padding
          other := spread base.labels.other (s.labels.getD []) } }

/-- Modelled from the spec: `Chart.getPadding(props)` of victory-util, which
is not under src/: a number pads every side, a box is taken as given. -/
def Chart.getPadding (props : Props) : Padding :=
  match props.padding with
  | PaddingProp.number n => { top := n, bottom := n, left := n, right := n }
  | PaddingProp.box p => p

/-- The instance fields set by `getCalculatedValues`. -/
structure Self where
  style : Styles
  padding : Padding
  radius : ℚ

namespace VictoryPie

/-- Method `degreesToRadians(degrees)`. -/
def degreesToRadians (env : Env) (degrees : ℚ) : ℚ := degrees * (env.pi / 180)

/-- Method `getRadius(props)`, reading `this.padding`. -/
def getRadius (padding : Padding) (props : Props) : ℚ :=
  min (props.width - padding.left - padding.right)
      (props.height - padding.top - padding.bottom) / 2

/-- Method `getCalculatedValues(props)`. -/
def getCalculatedValues (props : Props) : Self :=
  { style := Chart.getStyles props defaultStyles
    padding := Chart.getPadding props
    radius := getRadius (Chart.getPadding props) props }

/-- Method `getLabelPosition(props)`: the arc used to place labels. -/
def getLabelPosition (self : Self) (props : Props) : Arc :=
  let innerRadius :=
    if (Val.num props.innerRadius).truthy then props.innerRadius + self.style.labels.padding
    else self.style.labels.padding
  { outerRadius := self.radius, innerRadius := innerRadius }

/-- Props handed to a `Slice` element. -/
structure SliceProps where
  slice : SliceDescriptor
  pathFunction : Arc
  style : Obj

/-- Props handed to a `SliceLabel` element. -/
structure SliceLabelProps where
  labelComponent : Option LabelComponent
  style : Obj
  positionFunction : SliceDescriptor → ℚ × ℚ
  slice : SliceDescriptor

/-- The local `colorScale` of `renderSlice`. -/
def resolveColorScale (env : Env) (props : Props) : List Val :=
  match props.colorScale with
  | ColorScale.array colors => colors
  | ColorScale.named name => env.getColorScale name

/-- Method `renderSlice(slice, index, props)`. -/
def renderSlice (env : Env) (self : Self) (slice : SliceDescriptor) (index : Nat)
    (props : Props) : SliceProps :=
  let sliceFunction : Arc := { outerRadius := self.radius, innerRadius := props.innerRadius }
  let colorScale := resolveColorScale env props
  let fill := arrayAt colorScale (index % colorScale.length)
  let style := spread self.style.data [("fill", fill)]
  { slice := slice, pathFunction := sliceFunction, style := style }

/-- Method `renderSliceLabel(slice, props)`. -/
def renderSliceLabel (env : Env) (self : Self) (slice : SliceDescriptor) (props : Props) :
    SliceLabelProps :=
  let labelPosition := getLabelPosition self props
  { labelComponent := props.labelComponent
    style := self.style.labels.toObj
    positionFunction := env.centroid labelPosition
    slice := slice }

/-- The local `pie` of `renderData`: the configured layout. -/
def pieConfig (env : Env) (props : Props) : PieConfig :=
  { startAngle := degreesToRadians env props.startAngle
    endAngle := degreesToRadians env props.endAngle
    padAngle := degreesToRadians env props.padAngle
    value := fun data => data.y }

/-- The local `slices` of `renderData`: `pie(props.data)`. -/
def slices (env : Env) (props : Props) : List SliceDescriptor :=
  pie (pieConfig env props) props.data

/-- Method `renderData(props)`: one group per slice, holding the slice and its label. -/
def renderData (env : Env) (self : Self) (props : Props) :
    List (SliceProps × SliceLabelProps) :=
  (slices env props).enum.map fun p =>
    (renderSlice env self p.2 p.1 props, renderSliceLabel env self p.2 props)

end VictoryPie

/-! ## slice.jsx -/

namespace Slice

/-- The rendered `path` element. -/
structure PathElement where
  d : String
  style : Obj

/-- The local `dataStyles` of `renderSlice`: the datum without `x`, `y`, `label`. -/
def dataStyles (props : VictoryPie.SliceProps) : Obj :=
  omitKeys props.slice.data.toObj ["x", "y", "label"]

/-- The local `style` of `renderSlice`: `merge({}, props.style, dataStyles)`. -/
def mergedStyle (props : VictoryPie.SliceProps) : Obj :=
  merge (merge [] props.style) (dataStyles props)

/-- Method `renderSlice(props)`. -/
def renderSlice (env : Env) (props : VictoryPie.SliceProps) : PathElement :=
  { d := env.arcPath props.pathFunction props.slice
    style := env.evaluateStyle (mergedStyle props) }

end Slice

/-! ## slice-label.jsx -/

namespace SliceLabel

/-- The local `newProps` of `renderLabelComponent`, with the `children` passed along. -/
structure NewProps where
  x : Val
  y : Val
  data : Datum
  textAnchor : Val
  verticalAnchor : Val
  style : Obj
  children : Val

/-- Props of the built-in `VictoryLabel` element. -/
structure VictoryLabelProps where
  x : ℚ
  y : ℚ
  data : Datum
  style : Obj
  children : String

/-- Method `renderLabelComponent(props, position, label)`; `none` is the
TypeError raised when `props.labelComponent` is absent. -/
def renderLabelComponent (env : Env) (props : VictoryPie.SliceLabelProps) (position : ℚ × ℚ)
    (label : String) : Option NewProps :=
  match props.labelComponent with
  | none => none
  | some component =>
    let style := env.evaluateStyle
      (merge (merge [("padding", Val.num 0)] props.style) component.style)
    let children := (getProp component.props "children").or (Val.str label)
    some
      { x := (getProp component.props "x").or (Val.num position.1)
        y := (getProp component.props "y").or (Val.num position.2)
        data := props.slice.data
        textAnchor := (getProp component.props "textAnchor").or (Val.str "start")
        verticalAnchor := (getProp component.props "verticalAnchor").or (Val.str "middle")
        style := style
        children := children }

/-- Method `renderVictoryLabel(props, position, label)`. -/
def renderVictoryLabel (env : Env) (props : VictoryPie.SliceLabelProps) (position : ℚ × ℚ)
    (label : String) : VictoryLabelProps :=
  let style := env.evaluateStyle (spread [("padding", Val.num 0)] props.style)
  { x := position.1, y := position.2, data := props.slice.data, style := style,
    children := label }

/-- The local `label` of `renderLabel`: the label text. -/
def labelText (env : Env) (props : VictoryPie.SliceLabelProps) : String :=
  let data := props.slice.data
  if data.label.truthy then (env.evaluateProp data.label).toStr env else data.x.toStr env

/-- Method `renderLabel(props)`: the custom label when a component is given,
the built-in label otherwise. -/
def renderLabel (env : Env) (props : VictoryPie.SliceLabelProps) :
    Option NewProps ⊕ VictoryLabelProps :=
  let position := props.positionFunction props.slice
  let label := labelText env props
  if props.labelComponent.isSome then Sum.inl (renderLabelComponent env props position label)
  else Sum.inr (renderVictoryLabel env props position label)

end SliceLabel

/-! ## Sample inputs -/

/-- Modelled from the spec: `Chart.evaluateProp` on a literal returns the literal. -/
def Chart.evaluateProp (v : Val) : Val := v

/-- A concrete environment: `Math.PI` as the nearest double, identity style
evaluation, integers printed in decimal. -/
def sampleEnv : Env :=
  { pi := 884279719003555 / 281474976710656
    numToString := fun q => toString q.num
    evaluateStyle := fun o => o
    evaluateProp := Chart.evaluateProp
    getColorScale := fun _ => []
    arcPath := fun _ _ => ""
    centroid := fun _ _ => (0, 0) }

/-! ## Objects: reading merged layers -/

theorem foldl_read (k : String) (o : Obj) (init : Val) :
    o.foldl (fun acc kv => if kv.1 = k then kv.2 else acc) init =
      if hasKey o k then getProp o k else init := by
  induction o generalizing init with
  | nil => simp [hasKey, getProp]
  | cons kv rest ih =>
    have h1 := ih (if kv.1 = k then kv.2 else init)
    have h2 := ih (if kv.1 = k then kv.2 else Val.undefined)
    simp only [getProp, hasKey, List.foldl_cons, List.any_cons] at h1 h2 ⊢
    rw [h1, h2]
    by_cases hk : kv.1 = k <;> by_cases hr : (rest.any fun kv => decide (kv.1 = k)) = true <;>
      simp [hk, hr]

theorem getProp_nil (k : String) : getProp [] k = Val.undefined := rfl

theorem getProp_absent (o : Obj) (k : String) (h : hasKey o k = false) :
    getProp o k = Val.undefined := by
  have := foldl_read k o Val.undefined
  simp only [h] at this
  simpa [getProp] using this

theorem getProp_append (a b : Obj) (k : String) :
    getProp (a ++ b) k = if hasKey b k then getProp b k else getProp a k := by
  unfold getProp
  rw [List.foldl_append, foldl_read]
  rfl

theorem getProp_spread (a b : Obj) (k : String) :
    getProp (spread a b) k = if hasKey b k then getProp b k else getProp a k :=
  getProp_append a b k

theorem foldl_filter_keys (p : String → Bool) (k : String) (o : Obj) (init : Val) :
    (o.filter (fun kv => p kv.1)).foldl (fun acc kv => if kv.1 = k then kv.2 else acc) init =
      if p k then o.foldl (fun acc kv => if kv.1 = k then kv.2 else acc) init else init := by
  induction o generalizing init with
  | nil => simp
  | cons kv rest ih =>
    cases hp : p kv.1 with
    | true =>
      simp only [List.filter_cons, hp, if_true, List.foldl_cons]
      rw [ih]
      by_cases hk : kv.1 = k
      · subst hk; simp [hp]
      · simp [hk]
    | false =>
      simp only [List.filter_cons, hp, Bool.false_eq_true, if_false, List.foldl_cons]
      rw [ih]
      by_cases hk : kv.1 = k
      · subst hk; simp [hp]
      · simp [hk]

theorem hasKey_filter_keys (p : String → Bool) (k : String) (o : Obj) :
    hasKey (o.filter (fun kv => p kv.1)) k = (p k && hasKey o k) := by
  induction o with
  | nil => simp [hasKey]
  | cons kv rest ih =>
    simp only [hasKey] at ih ⊢
    cases hp : p kv.1 with
    | true =>
      simp only [List.filter_cons, hp, if_true, List.any_cons]
      rw [ih]
      by_cases hk : kv.1 = k
      · subst hk; simp [hp]
      · simp [hk]
    | false =>
      simp only [List.filter_cons, hp, Bool.false_eq_true, if_false, List.any_cons]
      rw [ih]
      by_cases hk : kv.1 = k
      · subst hk; simp [hp]
      · simp [hk]

theorem getProp_filter_keys (p : String → Bool) (k : String) (o : Obj) :
    getProp (o.filter (fun kv => p kv.1)) k = if p k then getProp o k else Val.undefined :=
  foldl_filter_keys p k o Val.undefined

theorem getProp_merge (t s : Obj) (k : String) :
    getProp (merge t s) k =
      if getProp s k ≠ Val.undefined then getProp s k else getProp t k := by
  unfold merge
  rw [getProp_append,
    hasKey_filter_keys (fun key => decide (getProp s key ≠ Val.undefined)) k s,
    getProp_filter_keys (fun key => decide (getProp s key ≠ Val.undefined)) k s]
  by_cases hd : getProp s k = Val.undefined
  · simp [hd]
  · have hk : hasKey s k = true := by
      by_contra hn
      exact hd (getProp_absent s k (by simpa using hn))
    simp [hd, hk]

theorem getProp_omitKeys (o : Obj) (keys : List String) (k : String) :
    getProp (omitKeys o keys) k = if keys.contains k then Val.undefined else getProp o k := by
  unfold omitKeys
  rw [getProp_filter_keys (fun key => !(keys.contains key)) k o]
  by_cases hc : keys.contains k = true <;> simp [hc]

/-! ## Sample inputs for the style, colour and label claims -/

/-- Instance fields as `getCalculatedValues` sets them, for a given base style. -/
def selfWith (base : Styles) (props : Props) : Self :=
  { style := Chart.getStyles props base
    padding := Chart.getPadding props
    radius := VictoryPie.getRadius (Chart.getPadding props) props }

/-- A slice descriptor carrying the datum `d`. -/
def sliceOf (d : Datum) : SliceDescriptor :=
  { data := d, index := 0, startAngle := 0, endAngle := 1, padAngle := 0 }

/-- Base styles whose data style is `{ fill: "red" }`. -/
def redBase : Styles := { defaultStyles with data := [("fill", Val.str "red")] }

/-- Default props with the chart-level override `style.data = { fill: "blue" }`. -/
def blueProps : Props :=
  { defaultProps with style := some { data := some [("fill", Val.str "blue")] } }

/-- The datum `{ x: "A", y: 1 }`. -/
def plainDatum : Datum := { x := Val.str "A", y := 1 }

/-- The datum `{ x: "A", y: 1, fill: "green" }`. -/
def greenDatum : Datum := { x := Val.str "A", y := 1, extra := [("fill", Val.str "green")] }

/-- The datum `{ x: "A", y: 5, label: 0 }`. -/
def zeroLabelDatum : Datum := { x := Val.str "A", y := 5, label := Val.num 0 }

/-- The datum `{ x: "A", y: 5, label: "custom" }`. -/
def customLabelDatum : Datum := { x := Val.str "A", y := 5, label := Val.str "custom" }

/-- Props of a `SliceLabel` for the datum `d`, with an optional label component. -/
def labelPropsOf (d : Datum) (c : Option LabelComponent) : VictoryPie.SliceLabelProps :=
  { labelComponent := c
    style := defaultStyles.labels.toObj
    positionFunction := fun _ => (12, 34)
    slice := sliceOf d }

/-- A label component that fixes `x = 0` and `y = 0`. -/
def originLabel : LabelComponent := { props := [("x", Val.num 0), ("y", Val.num 0)] }

/-- Donut props: the defaults with `innerRadius = 50`. -/
def donutProps : Props := { defaultProps with innerRadius := 50 }

/-! ## Radius and label arc -/

/-- C10: `getRadius` returns `min(width - left - right, height - top - bottom) / 2`;
a circle of that radius fits the padded box and no larger one does; with the
default props (400 by 400, padding 30) the radius is 170. -/
theorem getRadius_largest_circle (padding : Padding) (props : Props) :
    VictoryPie.getRadius padding props =
        min (props.width - padding.left - padding.right)
          (props.height - padding.top - padding.bottom) / 2 ∧
      2 * VictoryPie.getRadius padding props ≤ props.width - padding.left - padding.right ∧
      2 * VictoryPie.getRadius padding props ≤ props.height - padding.top - padding.bottom ∧
      (∀ r : ℚ, 2 * r ≤ props.width - padding.left - padding.right ∧
          2 * r ≤ props.height - padding.top - padding.bottom →
        r ≤ VictoryPie.getRadius padding props) ∧
      (VictoryPie.getCalculatedValues defaultProps).radius = 170 := by
  refine ⟨rfl, ?_, ?_, ?_, ?_⟩
  · have := min_le_left (props.width - padding.left - padding.right)
      (props.height - padding.top - padding.bottom)
    unfold VictoryPie.getRadius
    linarith
  · have := min_le_right (props.width - padding.left - padding.right)
      (props.height - padding.top - padding.bottom)
    unfold VictoryPie.getRadius
    linarith
  · rintro r ⟨h1, h2⟩
    have := le_min h1 h2
    unfold VictoryPie.getRadius
    linarith
  · simp only [VictoryPie.getCalculatedValues, VictoryPie.getRadius, Chart.getPadding,
      defaultProps]
    norm_num

/-- C6: for `innerRadius >= 0` the label arc of `getLabelPosition` has the chart
radius as outer radius, and as inner radius `innerRadius + labelPadding` when
`innerRadius > 0` and `labelPadding` when `innerRadius = 0`. -/
theorem getLabelPosition_radii (self : Self) (props : Props) (h : 0 ≤ props.innerRadius) :
    (VictoryPie.getLabelPosition self props).outerRadius = self.radius ∧
      (VictoryPie.getLabelPosition self props).innerRadius =
        if 0 < props.innerRadius then props.innerRadius + self.style.labels.padding
        else self.style.labels.padding := by
  refine ⟨rfl, ?_⟩
  by_cases hpos : 0 < props.innerRadius
  · have hne : props.innerRadius ≠ 0 := ne_of_gt hpos
    simp [VictoryPie.getLabelPosition, Val.truthy, hne, hpos]
  · have hz : props.innerRadius = 0 := le_antisymm (not_lt.mp hpos) h
    simp [VictoryPie.getLabelPosition, Val.truthy, hz]

theorem getLabelPosition_radii_witness :
    0 ≤ donutProps.innerRadius ∧
      (VictoryPie.getLabelPosition (VictoryPie.getCalculatedValues donutProps)
        donutProps).outerRadius = 170 ∧
      (VictoryPie.getLabelPosition (VictoryPie.getCalculatedValues donutProps)
        donutProps).innerRadius = 60 := by
  have h0 : (0 : ℚ) ≤ donutProps.innerRadius := by norm_num [donutProps, defaultProps]
  have hpos : (0 : ℚ) < donutProps.innerRadius := by norm_num [donutProps, defaultProps]
  obtain ⟨ho, hi⟩ :=
    getLabelPosition_radii (VictoryPie.getCalculatedValues donutProps) donutProps h0
  refine ⟨h0, ?_, ?_⟩
  · rw [ho]
    simp only [VictoryPie.getCalculatedValues, VictoryPie.getRadius, Chart.getPadding,
      donutProps, defaultProps]
    norm_num
  · rw [hi, if_pos hpos]
    simp only [VictoryPie.getCalculatedValues, Chart.getStyles, donutProps, defaultProps,
      defaultStyles]
    norm_num

/-! ## Colour cycling -/

theorem arrayAt_mod (colors : List Val) (i : Nat) (h : colors ≠ []) :
    colors[i % colors.length]? = some (arrayAt colors (i % colors.length)) := by
  have hlen : 0 < colors.length := List.length_pos.mpr h
  have hlt : i % colors.length < colors.length := Nat.mod_lt _ hlen
  simp [arrayAt, List.getD, List.getElem?_eq_getElem hlt]

theorem renderSlice_style_read (env : Env) (self : Self) (slice : SliceDescriptor)
    (index : Nat) (props : Props) (key : String) :
    getProp (VictoryPie.renderSlice env self slice index props).style key =
      if key = "fill" then
        arrayAt (VictoryPie.resolveColorScale env props)
          (index % (VictoryPie.resolveColorScale env props).length)
      else getProp self.style.data key := by
  simp only [VictoryPie.renderSlice, getProp_spread]
  by_cases hk : key = "fill"
  · subst hk; simp [hasKey, getProp]
  · have hk2 : ¬ "fill" = key := fun e => hk e.symm
    simp [hasKey, hk, hk2]

/-- C3: for a colour scale given as a non-empty array of length `k`, the fill
that `renderSlice` assigns to the slice of index `i` is `colorScale[i mod k]`. -/
theorem renderSlice_fill_cycles (env : Env) (self : Self) (slice : SliceDescriptor)
    (index : Nat) (props : Props) (colors : List Val)
    (hcs : props.colorScale = ColorScale.array colors) (hne : colors ≠ []) :
    colors[index % colors.length]? =
      some (getProp (VictoryPie.renderSlice env self slice index props).style "fill") := by
  rw [renderSlice_style_read]
  simp only [if_true, VictoryPie.resolveColorScale, hcs]
  exact arrayAt_mod colors index hne

theorem renderSlice_fill_cycles_witness :
    defaultProps.colorScale = ColorScale.array defaultColorScale ∧ defaultColorScale ≠ [] ∧
      defaultColorScale[9 % defaultColorScale.length]? =
        some (getProp (VictoryPie.renderSlice sampleEnv
          (VictoryPie.getCalculatedValues defaultProps) (sliceOf plainDatum) 9
          defaultProps).style "fill") ∧
      defaultColorScale[9 % defaultColorScale.length]? = some (Val.str "#78CCC4") :=
  ⟨rfl, by simp [defaultColorScale],
    renderSlice_fill_cycles sampleEnv (VictoryPie.getCalculatedValues defaultProps)
      (sliceOf plainDatum) 9 defaultProps defaultColorScale rfl (by simp [defaultColorScale]),
    by simp [defaultColorScale]⟩

/-! ## Style precedence -/

/-- The chart-level data override of the `style` prop, empty when absent. -/
def chartDataStyle (props : Props) : Obj :=
  match props.style with
  | none => []
  | some s => s.data.getD []

theorem getStyles_data_read (props : Props) (base : Styles) (key : String) :
    getProp (Chart.getStyles props base).data key =
      if hasKey (chartDataStyle props) key then getProp (chartDataStyle props) key
      else getProp base.data key := by
  unfold Chart.getStyles chartDataStyle
  cases hs : props.style with
  | none => simp [hasKey]
  | some s => simp [getProp_spread]

theorem mergedStyle_read (props : VictoryPie.SliceProps) (key : String) :
    getProp (Slice.mergedStyle props) key =
      if getProp (Slice.dataStyles props) key ≠ Val.undefined then
        getProp (Slice.dataStyles props) key
      else getProp props.style key := by
  unfold Slice.mergedStyle
  rw [getProp_merge, getProp_merge]
  by_cases h1 : getProp (Slice.dataStyles props) key = Val.undefined
  · by_cases h2 : getProp props.style key = Val.undefined
    · simp [h1, h2, getProp_nil]
    · simp [h1, h2]
  · simp [h1]

/-- C2, as the code has it: the style a slice's path is drawn with, before
style evaluation, is the base overwritten by the chart-level override, then
given the fill `colorScale[index mod k]`, then overwritten by the defined inline
fields of the datum (all but `x`, `y`, `label`). With base `{fill: "red"}` and
chart override `{fill: "blue"}`, an inline fill `"green"` resolves to `"green"`. -/
theorem resolved_style_layers (env : Env) (base : Styles) (props : Props)
    (slice : SliceDescriptor) (index : Nat) (key : String) :
    getProp (Slice.mergedStyle
        (VictoryPie.renderSlice env (selfWith base props) slice index props)) key =
      (if getProp (omitKeys slice.data.toObj ["x", "y", "label"]) key ≠ Val.undefined then
        getProp (omitKeys slice.data.toObj ["x", "y", "label"]) key
      else if key = "fill" then
        arrayAt (VictoryPie.resolveColorScale env props)
          (index % (VictoryPie.resolveColorScale env props).length)
      else if hasKey (chartDataStyle props) key then getProp (chartDataStyle props) key
      else getProp base.data key) ∧
    getProp (Slice.mergedStyle
        (VictoryPie.renderSlice sampleEnv (selfWith redBase blueProps) (sliceOf greenDatum) 0
          blueProps)) "fill" = Val.str "green" := by
  constructor
  · rw [mergedStyle_read, renderSlice_style_read]
    have hd : Slice.dataStyles (VictoryPie.renderSlice env (selfWith base props) slice index
        props) = omitKeys slice.data.toObj ["x", "y", "label"] := rfl
    rw [hd]
    have hs : (selfWith base props).style.data = (Chart.getStyles props base).data := rfl
    rw [hs, getStyles_data_read]
  · decide

/-- C2, counterexample: with the chart override `style.data = {fill: "blue"}`
and a datum without inline fields, the resolved fill of slice 0 is the first
colour of the default scale, not `"blue"`, both over the built-in base style
and over the base `{fill: "red"}`; with the chart override removed as well the
fill over the base `{fill: "red"}` is still that colour, not `"red"`. -/
theorem style_precedence_counterexample :
    getProp (Slice.mergedStyle
        (VictoryPie.renderSlice sampleEnv (VictoryPie.getCalculatedValues blueProps)
          (sliceOf plainDatum) 0 blueProps)) "fill" = Val.str "#75C776" ∧
      getProp (Slice.mergedStyle
        (VictoryPie.renderSlice sampleEnv (selfWith redBase blueProps) (sliceOf plainDatum) 0
          blueProps)) "fill" = Val.str "#75C776" ∧
      getProp (Slice.mergedStyle
        (VictoryPie.renderSlice sampleEnv (selfWith redBase blueProps) (sliceOf plainDatum) 0
          blueProps)) "fill" ≠ Val.str "blue" ∧
      getProp (Slice.mergedStyle
        (VictoryPie.renderSlice sampleEnv (selfWith redBase defaultProps) (sliceOf plainDatum) 0
          defaultProps)) "fill" ≠ Val.str "red" := by
  decide

/-! ## Labels -/

theorem labelText_truthy (env : Env) (props : VictoryPie.SliceLabelProps)
    (h : props.slice.data.label.truthy = true) :
    SliceLabel.labelText env props = (env.evaluateProp props.slice.data.label).toStr env := by
  simp [SliceLabel.labelText, h]

theorem labelText_falsy (env : Env) (props : VictoryPie.SliceLabelProps)
    (h : props.slice.data.label.truthy = false) :
    SliceLabel.labelText env props = props.slice.data.x.toStr env := by
  simp [SliceLabel.labelText, h]

/-- C4, at the datum `{x: "A", y: 5, label: 0}`: the datum has a label field
whose stringified evaluation is `"0"`, yet `renderLabel` computes the text
`"A"`; the two examples of the claim do give `"A"` and `"custom"`. -/
theorem labelText_zero_label :
    SliceLabel.labelText sampleEnv (labelPropsOf zeroLabelDatum none) = "A" ∧
      (sampleEnv.evaluateProp zeroLabelDatum.label).toStr sampleEnv = "0" ∧
      SliceLabel.labelText sampleEnv (labelPropsOf { x := Val.str "A", y := 5 } none) = "A" ∧
      SliceLabel.labelText sampleEnv (labelPropsOf customLabelDatum none) = "custom" := by
  refine ⟨?_, ?_, ?_, ?_⟩
  · rw [labelText_falsy _ _ (by simp [labelPropsOf, sliceOf, zeroLabelDatum, Val.truthy])]
    rfl
  · rfl
  · rw [labelText_falsy _ _ (by simp [labelPropsOf, sliceOf, Val.truthy])]
    rfl
  · rw [labelText_truthy _ _ (by simp [labelPropsOf, sliceOf, customLabelDatum, Val.truthy])]
    rfl

/-- C5, at a label component that fixes `x = 0` and `y = 0` with computed
position `(12, 34)`: the props built by `renderLabelComponent` carry the
computed `x = 12` and `y = 34`, not the component's own zeros. -/
theorem renderLabelComponent_origin :
    (SliceLabel.renderLabelComponent sampleEnv (labelPropsOf plainDatum (some originLabel))
        (12, 34) "A").map (fun np => (np.x, np.y)) = some (Val.num 12, Val.num 34) ∧
      getProp originLabel.props "x" = Val.num 0 ∧ getProp originLabel.props "y" = Val.num 0 := by
  refine ⟨?_, by decide, by decide⟩
  simp [SliceLabel.renderLabelComponent, labelPropsOf, originLabel, getProp, Val.or, Val.truthy]

/-! ## The pie layout: spans, starts, order, pad angle -/

/-- Angular span of a slice descriptor: `endAngle - startAngle`. -/
def spanOf (s : SliceDescriptor) : ℚ := s.endAngle - s.startAngle

/-- The dataset of the end-to-end scenario: weights 1, 1, 2. -/
def scenarioProps : Props :=
  { defaultProps with
    data := [{ x := Val.str "A", y := 1 }, { x := Val.str "B", y := 1 },
      { x := Val.str "C", y := 2 }] }

/-- A dataset of three zero weights. -/
def zeroProps : Props :=
  { defaultProps with
    data := [{ x := Val.str "A", y := 0 }, { x := Val.str "B", y := 0 },
      { x := Val.str "C", y := 0 }] }

theorem pieArcs_length (cfg : PieConfig) (total : ℚ) (data : List Datum) (a0 : ℚ) (i : Nat) :
    (pieArcs cfg total a0 i data).length = data.length := by
  induction data generalizing a0 i with
  | nil => rfl
  | cons d rest ih => simp [pieArcs, ih]

theorem pieArcs_map_data (cfg : PieConfig) (total : ℚ) (data : List Datum) (a0 : ℚ) (i : Nat) :
    (pieArcs cfg total a0 i data).map (fun s => s.data) = data := by
  induction data generalizing a0 i with
  | nil => rfl
  | cons d rest ih => simp [pieArcs, ih]

theorem pieArcs_map_index (cfg : PieConfig) (total : ℚ) (data : List Datum) (a0 : ℚ) (i : Nat) :
    (pieArcs cfg total a0 i data).map (fun s => s.index) = List.range' i data.length := by
  induction data generalizing a0 i with
  | nil => rfl
  | cons d rest ih => simp [pieArcs, ih, List.range'_succ]

theorem pieArcs_map_span (cfg : PieConfig) (total : ℚ) (data : List Datum) (a0 : ℚ) (i : Nat) :
    (pieArcs cfg total a0 i data).map spanOf = data.map (pieSpan cfg total) := by
  induction data generalizing a0 i with
  | nil => rfl
  | cons d rest ih => simp [pieArcs, ih, spanOf]

theorem pieArcs_pad (cfg : PieConfig) (total : ℚ) (data : List Datum) (a0 : ℚ) (i : Nat) :
    ∀ s ∈ pieArcs cfg total a0 i data, s.padAngle = cfg.padAngle := by
  induction data generalizing a0 i with
  | nil => simp [pieArcs]
  | cons d rest ih =>
    intro s hs
    simp only [pieArcs, List.mem_cons] at hs
    rcases hs with h | h
    · rw [h]
    · exact ih _ _ s h

theorem pieArcs_start (cfg : PieConfig) (total : ℚ) (data : List Datum) (a0 : ℚ) (i : Nat)
    (j : Nat) (s : SliceDescriptor) (h : (pieArcs cfg total a0 i data)[j]? = some s) :
    s.startAngle = a0 + (((pieArcs cfg total a0 i data).take j).map spanOf).sum := by
  induction data generalizing a0 i j with
  | nil => simp [pieArcs] at h
  | cons d rest ih =>
    cases j with
    | zero =>
      simp only [pieArcs, List.getElem?_cons_zero, Option.some.injEq] at h
      subst h
      simp
    | succ j =>
      simp only [pieArcs, List.getElem?_cons_succ] at h
      have := ih _ _ j h
      rw [this]
      simp only [pieArcs, List.take_succ_cons, List.map_cons, List.sum_cons, spanOf]
      ring

theorem pieArcs_pad_irrelevant (cfg cfg2 : PieConfig) (hs : cfg2.startAngle = cfg.startAngle)
    (he : cfg2.endAngle = cfg.endAngle) (hv : cfg2.value = cfg.value) (total : ℚ)
    (data : List Datum) (a0 : ℚ) (i : Nat) :
    (pieArcs cfg2 total a0 i data).map (fun s => (s.data, s.index, s.startAngle, s.endAngle)) =
      (pieArcs cfg total a0 i data).map (fun s => (s.data, s.index, s.startAngle, s.endAngle)) := by
  have hspan : ∀ d, pieSpan cfg2 total d = pieSpan cfg total d := by
    intro d
    simp [pieSpan, hs, he, hv]
  induction data generalizing a0 i with
  | nil => rfl
  | cons d rest ih => simp [pieArcs, hspan, ih]

theorem sum_scaled (c total : ℚ) (f : Datum → ℚ) (data : List Datum) :
    (data.map (fun d => c * f d / total)).sum = c * (data.map f).sum / total := by
  induction data with
  | nil => simp
  | cons d rest ih =>
    simp only [List.map_cons, List.sum_cons, ih]
    ring

theorem pieSpan_configured (env : Env) (props : Props) (total : ℚ) (ht : total ≠ 0) (d : Datum) :
    pieSpan (VictoryPie.pieConfig env props) total d =
      (props.endAngle - props.startAngle) * env.pi / 180 * d.y / total := by
  simp only [pieSpan, VictoryPie.pieConfig, VictoryPie.degreesToRadians, ht, if_false]
  ring

/-- C1: for non-negative weights of total `T > 0` and `padAngle = 0`, with
`S = (endAngle - startAngle) * pi / 180`, the layout of `renderData` gives slice
`i` the span `S * y_i / T`, starts it at `startAngle * pi / 180` plus the spans
of the slices before it, and the spans sum to `S`. -/
theorem slices_partition (env : Env) (props : Props)
    (_hnn : ∀ d ∈ props.data, 0 ≤ d.y) (hT : 0 < (props.data.map (fun d => d.y)).sum)
    (_hpad : props.padAngle = 0) :
    (VictoryPie.slices env props).map spanOf =
        props.data.map (fun d =>
          (props.endAngle - props.startAngle) * env.pi / 180 * d.y /
            (props.data.map (fun d => d.y)).sum) ∧
      (∀ i s, (VictoryPie.slices env props)[i]? = some s →
        s.startAngle = props.startAngle * env.pi / 180 +
          (((VictoryPie.slices env props).take i).map spanOf).sum) ∧
      ((VictoryPie.slices env props).map spanOf).sum =
        (props.endAngle - props.startAngle) * env.pi / 180 := by
  have hT0 : (props.data.map (fun d => d.y)).sum ≠ 0 := ne_of_gt hT
  have hspans : (VictoryPie.slices env props).map spanOf =
      props.data.map (fun d =>
        (props.endAngle - props.startAngle) * env.pi / 180 * d.y /
          (props.data.map (fun d => d.y)).sum) := by
    unfold VictoryPie.slices pie
    rw [pieArcs_map_span]
    apply List.map_congr_left
    intro d _
    exact pieSpan_configured env props _ hT0 d
  refine ⟨hspans, ?_, ?_⟩
  · intro i s h
    have h2 : s.startAngle = (VictoryPie.pieConfig env props).startAngle +
        (((VictoryPie.slices env props).take i).map spanOf).sum :=
      pieArcs_start _ _ _ _ _ i s h
    have hs : (VictoryPie.pieConfig env props).startAngle = props.startAngle * env.pi / 180 := by
      simp only [VictoryPie.pieConfig, VictoryPie.degreesToRadians]
      ring
    rw [h2, hs]
  · rw [hspans, sum_scaled]
    field_simp
    ring

theorem scenario_layout (env : Env) :
    (VictoryPie.slices env scenarioProps).map spanOf = [env.pi / 2, env.pi / 2, env.pi] ∧
      (VictoryPie.slices env scenarioProps).map (fun s => s.startAngle) =
        [0, env.pi / 2, env.pi] := by
  constructor
  · simp only [VictoryPie.slices, pie, pieArcs, pieSpan, VictoryPie.pieConfig,
      VictoryPie.degreesToRadians, scenarioProps, defaultProps, spanOf, List.map_cons,
      List.map_nil, List.sum_cons, List.sum_nil]
    norm_num
    refine ⟨?_, ?_⟩ <;> ring
  · simp only [VictoryPie.slices, pie, pieArcs, pieSpan, VictoryPie.pieConfig,
      VictoryPie.degreesToRadians, scenarioProps, defaultProps, List.map_cons,
      List.map_nil, List.sum_cons, List.sum_nil]
    norm_num
    refine ⟨?_, ?_⟩ <;> ring

theorem slices_partition_witness :
    (∀ d ∈ scenarioProps.data, 0 ≤ d.y) ∧
      0 < (scenarioProps.data.map (fun d => d.y)).sum ∧ scenarioProps.padAngle = 0 ∧
      ((VictoryPie.slices sampleEnv scenarioProps).map spanOf).sum =
        (scenarioProps.endAngle - scenarioProps.startAngle) * sampleEnv.pi / 180 ∧
      (VictoryPie.slices sampleEnv scenarioProps).map spanOf =
        [sampleEnv.pi / 2, sampleEnv.pi / 2, sampleEnv.pi] ∧
      (VictoryPie.slices sampleEnv scenarioProps).map (fun s => s.startAngle) =
        [0, sampleEnv.pi / 2, sampleEnv.pi] := by
  have h1 : ∀ d ∈ scenarioProps.data, 0 ≤ d.y := by
    intro d hd
    simp only [scenarioProps, List.mem_cons, List.mem_singleton, List.not_mem_nil,
      or_false] at hd
    rcases hd with h | h | h <;> rw [h] <;> norm_num
  have h2 : 0 < (scenarioProps.data.map (fun d => d.y)).sum := by
    simp only [scenarioProps, List.map_cons, List.map_nil, List.sum_cons, List.sum_nil]
    norm_num
  have h3 : scenarioProps.padAngle = 0 := rfl
  exact ⟨h1, h2, h3, (slices_partition sampleEnv scenarioProps h1 h2 h3).2.2,
    (scenario_layout sampleEnv).1, (scenario_layout sampleEnv).2⟩

/-- C7: the layout of `renderData` returns one descriptor per datum, in input
order: the data of the descriptors are the input data and the `i`-th descriptor
has index `i`. -/
theorem slices_keep_order (env : Env) (props : Props) :
    (VictoryPie.slices env props).length = props.data.length ∧
      (VictoryPie.slices env props).map (fun s => s.data) = props.data ∧
      (VictoryPie.slices env props).map (fun s => s.index) = List.range props.data.length := by
  unfold VictoryPie.slices pie
  refine ⟨pieArcs_length _ _ _ _ _, pieArcs_map_data _ _ _ _ _, ?_⟩
  rw [pieArcs_map_index, List.range_eq_range']

/-- C8: when every weight is zero the layout of `renderData` returns one
descriptor per datum, each of zero span (`endAngle = startAngle`). -/
theorem slices_zero_weights (env : Env) (props : Props) (hz : ∀ d ∈ props.data, d.y = 0) :
    (VictoryPie.slices env props).length = props.data.length ∧
      ∀ s ∈ VictoryPie.slices env props, s.endAngle = s.startAngle := by
  refine ⟨(by unfold VictoryPie.slices pie; exact pieArcs_length _ _ _ _ _), ?_⟩
  have hspans : (VictoryPie.slices env props).map spanOf = props.data.map (fun _ => (0 : ℚ)) := by
    unfold VictoryPie.slices pie
    rw [pieArcs_map_span]
    apply List.map_congr_left
    intro d hd
    have hy : d.y = 0 := hz d hd
    simp [pieSpan, VictoryPie.pieConfig, hy]
  intro s hs
  have hmem : spanOf s ∈ (VictoryPie.slices env props).map spanOf := List.mem_map_of_mem _ hs
  rw [hspans] at hmem
  have h0 : spanOf s = 0 := by
    rcases List.mem_map.mp hmem with ⟨_, _, h⟩
    exact h.symm
  unfold spanOf at h0
  linarith

/-- C9: two pad angles `p, q >= 0` give descriptors with the same data, index,
`startAngle` and `endAngle`; only the recorded `padAngle` differs, being
`p * pi / 180` on every slice of the one and `q * pi / 180` on every slice of
the other. -/
theorem slices_pad_recorded_only (env : Env) (props : Props) (p q : ℚ) (_hp : 0 ≤ p)
    (_hq : 0 ≤ q) :
    (VictoryPie.slices env { props with padAngle := p }).map
        (fun s => (s.data, s.index, s.startAngle, s.endAngle)) =
      (VictoryPie.slices env { props with padAngle := q }).map
        (fun s => (s.data, s.index, s.startAngle, s.endAngle)) ∧
      (∀ s ∈ VictoryPie.slices env { props with padAngle := p }, s.padAngle = p * env.pi / 180) ∧
      (∀ s ∈ VictoryPie.slices env { props with padAngle := q }, s.padAngle = q * env.pi / 180) := by
  refine ⟨?_, ?_, ?_⟩
  · unfold VictoryPie.slices pie
    exact pieArcs_pad_irrelevant (VictoryPie.pieConfig env { props with padAngle := q })
      (VictoryPie.pieConfig env { props with padAngle := p }) rfl rfl rfl _ _ _ _
  · intro s hs
    have := pieArcs_pad _ _ _ _ _ s hs
    rw [this]
    simp only [VictoryPie.pieConfig, VictoryPie.degreesToRadians]
    ring
  · intro s hs
    have := pieArcs_pad _ _ _ _ _ s hs
    rw [this]
    simp only [VictoryPie.pieConfig, VictoryPie.degreesToRadians]
    ring

theorem slices_zero_weights_witness :
    (∀ d ∈ zeroProps.data, d.y = 0) ∧
      (VictoryPie.slices sampleEnv zeroProps).length = 3 ∧
      ∀ s ∈ VictoryPie.slices sampleEnv zeroProps, s.endAngle = s.startAngle := by
  have h1 : ∀ d ∈ zeroProps.data, d.y = 0 := by
    intro d hd
    simp only [zeroProps, List.mem_cons, List.mem_singleton, List.not_mem_nil,
      or_false] at hd
    rcases hd with h | h | h <;> rw [h]
  exact ⟨h1, (slices_zero_weights sampleEnv zeroProps h1).1,
    (slices_zero_weights sampleEnv zeroProps h1).2⟩

theorem slices_pad_recorded_only_witness :
    (0 : ℚ) ≤ 0 ∧ (0 : ℚ) ≤ 9 ∧
      (VictoryPie.slices sampleEnv { scenarioProps with padAngle := 0 }).map
          (fun s => (s.data, s.index, s.startAngle, s.endAngle)) =
        (VictoryPie.slices sampleEnv { scenarioProps with padAngle := 9 }).map
          (fun s => (s.data, s.index, s.startAngle, s.endAngle)) ∧
      (∀ s ∈ VictoryPie.slices sampleEnv { scenarioProps with padAngle := 9 },
        s.padAngle = 9 * sampleEnv.pi / 180) :=
  ⟨le_refl 0, by norm_num,
    (slices_pad_recorded_only sampleEnv scenarioProps 0 9 (le_refl 0) (by norm_num)).1,
    (slices_pad_recorded_only sampleEnv scenarioProps 0 9 (le_refl 0) (by norm_num)).2.2⟩
